import Mathlib

/-!
Verification of the quiz-app workflow controller (`src/App.tsx`) against its
specification. The TypeScript source is shallowly embedded: React state
updates become a record-update step function, the asynchronous
extract → validate → generate pipeline becomes an `Except`-valued function,
and the vendor PDF/Word decoders are modelled as explicit data carried by the
file (the source treats them as opaque capabilities).
-/

namespace QuizApp

/-- `QuizQuestion` from `src/types.ts`: question text, ordered options, and
the correct answer. -/
structure QuizQuestion where
  question : String
  options : List String
  correctAnswer : String
deriving DecidableEq, Repr

/-- `AppState` from `src/types.ts`: the workflow phase tag. -/
inductive AppState where
  | setup
  | generating
  | quiz
  | review
  | results
deriving DecidableEq, Repr

/-- The React state of `App` (`src/App.tsx` lines 11-16): phase, questions,
per-question answers, current index, timer duration, and the optional error
message. Indices are modelled as `Nat`; the source only ever assigns
non-negative indices. -/
structure AppModel where
  appState : AppState
  quizQuestions : List QuizQuestion
  userAnswers : List String
  currentQuestionIndex : Nat
  timerDuration : Nat
  error : Option String
deriving DecidableEq, Repr

/-! ## File-name extension dispatch (`src/App.tsx` line 43) -/

/-- JavaScript `String.prototype.split` on a single separator character,
over the character list of the string: `"a.b".split "." = ["a", "b"]`,
`"".split "." = [""]`, `"a.".split "." = ["a", ""]`. The result is never
empty. -/
def splitChar (sep : Char) : List Char → List (List Char)
  | [] => [[]]
  | c :: cs =>
    match splitChar sep cs with
    | [] => [[]]
    | r :: rs => if c = sep then [] :: r :: rs else (c :: r) :: rs

/-- `file.name.split('.').pop()?.toLowerCase()`: the lowercased part of the
file name after the last dot; the whole lowercased name when it has no dot
(`split` always returns at least one part, so `pop` never yields
`undefined`). -/
def extLabel (name : String) : String :=
  String.mk (((splitChar '.' name.data).getLastD []).map Char.toLower)

/-! ## The file and the opaque decoder boundaries -/

/-- How a `FileReader` read can fail (`src/App.tsx` lines 48-50 and 82-85):
the load event carries no result, or the reader signals an error. -/
inductive ReadFail where
  | nullResult
  | ioError
deriving DecidableEq, Repr

deriving instance DecidableEq for Except

/-- The opaque vendor decoders, modelled as the data they would produce on
this file's bytes: for the PDF capability, per page (in order from page 1)
either its text items (`s.str` strings) or a decode failure; for the Word
capability, either the raw text or a decode failure. -/
structure DecodedData where
  pdfPages : List (Except Unit (List String))
  wordText : Except Unit String
deriving DecidableEq, Repr

/-- A file: its name and the outcome of reading its bytes. Reading happens
before any extension dispatch (`fileReader.readAsArrayBuffer` fires the
`onload`/`onerror` callbacks in which all further processing runs). -/
structure File where
  name : String
  readResult : Except ReadFail DecodedData
deriving DecidableEq, Repr

/-! ## Extraction (`src/App.tsx` lines 42-88) -/

/-- Typed failure reasons of extraction, each carrying the human-readable
message the source rejects with. -/
inductive ExtractError where
  | readFailure (msg : String)
  | unsupportedFormat (msg : String)
  | parseFailure (msg : String)
deriving DecidableEq, Repr

/-- The message carried by an extraction failure (`err.message`). -/
def ExtractError.message : ExtractError → String
  | .readFailure m => m
  | .unsupportedFormat m => m
  | .parseFailure m => m

/-- One page's text: the page's text items joined by single spaces
(`textContent.items.map(s => s.str).join(' ')`). -/
def pageText (items : List String) : String :=
  String.intercalate " " items

/-- The PDF page loop (`src/App.tsx` lines 58-63): pages are processed in
order from page 1; each successful page appends its text followed by
`"\n\n"`; a decode failure at any page aborts the whole extraction. -/
def pdfFullText : List (Except Unit (List String)) → Except Unit String
  | [] => .ok ""
  | page :: rest =>
    match page with
    | .error e => .error e
    | .ok items =>
      match pdfFullText rest with
      | .error e => .error e
      | .ok restText => .ok (pageText items ++ "\n\n" ++ restText)

/-- Message for a failed PDF parse (`src/App.tsx` line 76). -/
def pdfParseMsg : String :=
  "Failed to parse the PDF. It might be corrupted, password-protected, or in an unsupported format."

/-- Message for a failed Word parse (`src/App.tsx` line 78). -/
def wordParseMsg : String :=
  "Failed to parse the Word document. It might be corrupted or password-protected."

/-- Message for an unsupported extension (`src/App.tsx` line 68). -/
def unsupportedMsg : String :=
  "Unsupported file type. Please upload a PDF, DOC, or DOCX file."

/-- The PDF branch: run the page loop; a decode error becomes a
`ParseFailure` with the PDF message (the catch at lines 73-80 selects the
PDF wording because the extension is `pdf`). -/
def pdfBranch (pages : List (Except Unit (List String))) : Except ExtractError String :=
  match pdfFullText pages with
  | .ok t => .ok t
  | .error _ => .error (.parseFailure pdfParseMsg)

/-- The Word branch: `mammoth.extractRawText` yields `result.value`; a
failure becomes a `ParseFailure` with the Word message. -/
def wordBranch (w : Except Unit String) : Except ExtractError String :=
  match w with
  | .ok v => .ok v
  | .error _ => .error (.parseFailure wordParseMsg)

/-- `extractTextFromFile`: the read happens first (`readAsArrayBuffer`); a
missing result or a reader error rejects before any dispatch; only inside
the load handler is the extension examined and the matching decoder run, or
the unsupported-format rejection raised. -/
def extractTextFromFile (file : File) : Except ExtractError String :=
  let extension := extLabel file.name
  match file.readResult with
  | .error .nullResult => .error (.readFailure "Failed to read file.")
  | .error .ioError => .error (.readFailure "An error occurred while reading the file.")
  | .ok data =>
    if extension = "pdf" then
      pdfBranch data.pdfPages
    else if extension = "docx" ∨ extension = "doc" then
      wordBranch data.wordText
    else
      .error (.unsupportedFormat unsupportedMsg)

/-! ## Content validation (`src/App.tsx` lines 23-27) -/

/-- JavaScript `s.substring(a, b)` for `a ≤ b`, over characters. -/
def jsSubstring (s : String) (a b : Nat) : String :=
  String.mk ((s.data.drop a).take (b - a))

/-- The characters JavaScript `String.prototype.trim` strips: spaces, tabs,
and line terminators. -/
def isJsWhitespace (c : Char) : Bool :=
  c == ' ' || c == '\t' || c == '\n' || c == '\r' || c == '\x0b' || c == '\x0c'

/-- JavaScript `s.trim()`: leading and trailing whitespace removed. -/
def jsTrim (s : String) : String :=
  String.mk (((s.data.dropWhile isJsWhitespace).reverse.dropWhile isJsWhitespace).reverse)

/-- The data the too-short rejection reports: the trimmed length and the
snippet `trimmedText.substring(0, 100)`. -/
structure TooShort where
  length : Nat
  snippet : String
deriving DecidableEq, Repr

/-- The message thrown for too-short content (`src/App.tsx` line 26). -/
def tooShortMessage (n : Nat) (snippet : String) : String :=
  "Document content is too short (" ++ toString n ++
    " characters) to generate a meaningful quiz. This can happen if the document is very brief or is image-based from which text cannot be extracted.\n\nExtracted text snippet: \"" ++
    snippet ++ "...\""

/-- The length check of `handleQuizGenerate`: trim the extracted text; fewer
than 100 characters after trimming is a failure carrying the trimmed length
and the first 100 characters of the trimmed text. -/
def validateText (text : String) : Except TooShort Unit :=
  let trimmedText := jsTrim text
  if trimmedText.length < 100 then
    .error ⟨trimmedText.length, jsSubstring trimmedText 0 100⟩
  else
    .ok ()

/-! ## The generate pipeline and the controller (`src/App.tsx` lines 18-40) -/

/-- The body of the `try` block of `handleQuizGenerate`: extract, validate,
then call the quiz producer (`generateQuizFromText`, an external
collaborator passed here as `gen`) with the full extracted text and the
requested count. Each failure is converted to the message the catch block
observes (`err.message`). -/
def runPipeline (gen : String → Nat → Except String (List QuizQuestion))
    (file : File) (numQuestions : Nat) : Except String (List QuizQuestion) :=
  match extractTextFromFile file with
  | .error e => .error e.message
  | .ok fileText =>
    match validateText fileText with
    | .error ts => .error (tooShortMessage ts.length ts.snippet)
    | .ok _ => gen fileText numQuestions

/-- `handleQuizGenerate`: on success the session is installed (questions,
empty answers of the same length, duration, index 0) and the phase becomes
`quiz`; on any failure the catch block stores the failure's message and
returns the phase to `setup`, touching nothing else. The transient
`generating` phase set at entry is not part of the settled state. -/
def handleQuizGenerate (gen : String → Nat → Except String (List QuizQuestion))
    (s : AppModel) (file : File) (numQuestions duration : Nat) : AppModel :=
  match runPipeline gen file numQuestions with
  | .ok questions =>
    { s with
      appState := .quiz
      quizQuestions := questions
      userAnswers := List.replicate questions.length ""
      timerDuration := duration
      currentQuestionIndex := 0
      error := none }
  | .error msg => { s with appState := .setup, error := some msg }

/-! ## Session events (`src/App.tsx` lines 90-127 and `renderContent`) -/

/-- JavaScript array element assignment `a[i] = v`: in range it overwrites,
out of range it extends the array (holes are modelled as the empty
string). -/
def jsArraySet (l : List String) (i : Nat) (v : String) : List String :=
  if i < l.length then l.set i v
  else l ++ List.replicate (i - l.length) "" ++ [v]

/-- The events the rendered views can fire. `renderContent` wires
`selectAnswer`/`next`/`prev`/`finish` only in the `quiz` phase, `jump` and
`finalSubmit` only in `review`, and `retry` only in `results`. -/
inductive Event where
  | selectAnswer (text : String)
  | next
  | prev
  | finish
  | finalSubmit
  | jump (i : Nat)
  | retry
deriving DecidableEq, Repr

/-- One UI event applied to the model, following the handlers of
`src/App.tsx`: `handleAnswerSelect`, `handleNextQuestion`,
`handlePrevQuestion`, `handleQuizFinish`, `handleFinalSubmit`,
`handleJumpToQuestion` (which sets the index unconditionally), and
`handleRetry`. Events not wired in the current phase leave the model
unchanged. -/
def step (s : AppModel) (e : Event) : AppModel :=
  match s.appState, e with
  | .quiz, .selectAnswer text =>
    { s with userAnswers := jsArraySet s.userAnswers s.currentQuestionIndex text }
  | .quiz, .next =>
    if s.currentQuestionIndex < s.quizQuestions.length - 1 then
      { s with currentQuestionIndex := s.currentQuestionIndex + 1 }
    else s
  | .quiz, .prev =>
    if s.currentQuestionIndex > 0 then
      { s with currentQuestionIndex := s.currentQuestionIndex - 1 }
    else s
  | .quiz, .finish => { s with appState := .review }
  | .review, .jump i => { s with currentQuestionIndex := i, appState := .quiz }
  | .review, .finalSubmit => { s with appState := .results }
  | .results, .retry =>
    { s with
      appState := .setup
      quizQuestions := []
      userAnswers := []
      currentQuestionIndex := 0
      error := none }
  | _, _ => s

/-- A freshly installed session: the state `handleQuizGenerate` commits on
success, for question list `qs` and duration `d`. -/
def freshSession (qs : List QuizQuestion) (d : Nat) : AppModel :=
  { appState := .quiz
    quizQuestions := qs
    userAnswers := List.replicate qs.length ""
    currentQuestionIndex := 0
    timerDuration := d
    error := none }

/-- States reachable from `init` by any sequence of UI events. -/
inductive Reachable (init : AppModel) : AppModel → Prop where
  | refl : Reachable init init
  | tail : ∀ s e, Reachable init s → Reachable init (step s e)

/-- States reachable from `init` when every `jump` event carries an index
that is in range for the question list at the moment it fires. -/
inductive GuardedReachable (init : AppModel) : AppModel → Prop where
  | refl : GuardedReachable init init
  | tail : ∀ s e, GuardedReachable init s →
      (∀ i, e = Event.jump i → i < s.quizQuestions.length) →
      GuardedReachable init (step s e)

/-- The session invariant of the spec: in the `quiz`, `review` (and, between
them, `results`) phases the current index is in range, and the answer list
always has the same length as the question list. -/
def SessionInv (s : AppModel) : Prop :=
  (s.appState = .quiz ∨ s.appState = .review ∨ s.appState = .results →
    s.currentQuestionIndex < s.quizQuestions.length) ∧
  s.userAnswers.length = s.quizQuestions.length

/-! ## Spec-side formalisation used for the refinement comparison -/

/-- The claim's wording for multi-part text: parts joined with `sep` between
consecutive parts and no trailing separator. -/
def sepConcat (sep : String) : List String → String
  | [] => ""
  | [t] => t
  | t :: u :: rest => t ++ sep ++ sepConcat sep (u :: rest)

/-- The PDF text the claim describes: the page-ordered concatenation of each
page's space-joined tokens, with consecutive pages separated by a blank
line. -/
def specPdfText (pages : List (List String)) : String :=
  sepConcat "\n\n" (pages.map pageText)

/-- Whether an extraction outcome is an unsupported-format failure. -/
def failsUnsupported : Except ExtractError String → Bool
  | .error (.unsupportedFormat _) => true
  | _ => false

/-! ## Concrete data for witnesses and counterexamples -/

/-- A sample quiz question. -/
def demoQuestion : QuizQuestion := ⟨"q", ["a", "b"], "a"⟩

/-- A freshly installed one-question session. -/
def demoInit : AppModel := freshSession [demoQuestion] 30

/-- From the one-question session: finish to `review`, then jump to
index 5 — an index far past the single question. -/
def demoEscaped : AppModel := step (step demoInit .finish) (.jump 5)

/-- A `.txt` file whose byte read fails. -/
def txtReadFailFile : File := ⟨"notes.txt", .error .ioError⟩

/-- A PDF file with a single page holding the single token `"a"`. -/
def onePagePdfFile : File := ⟨"x.pdf", .ok ⟨[Except.ok ["a"]], .ok ""⟩⟩

/-- A quiz producer that always fails. -/
def genFail : String → Nat → Except String (List QuizQuestion) :=
  fun _ _ => .error "generation failed"

/-- A quiz producer returning the requested number of sample questions. -/
def genOk : String → Nat → Except String (List QuizQuestion) :=
  fun _ n => .ok (List.replicate n demoQuestion)

/-- One hundred characters of text. -/
def text100 : String := String.mk (List.replicate 100 'a')

/-- A Word file whose decoder yields `text100`. -/
def wordFile100 : File := ⟨"doc.docx", .ok ⟨[], .ok text100⟩⟩

/-! ## Helper lemmas -/

/-- Splitting on a character that does not occur yields the whole list as
the single part. -/
lemma splitChar_not_mem {sep : Char} : ∀ {l : List Char}, sep ∉ l →
    splitChar sep l = [l]
  | [], _ => rfl
  | c :: cs, h => by
    have hc : ¬ c = sep := fun he => h (he ▸ List.mem_cons_self c cs)
    have hcs : sep ∉ cs := fun hm => h (List.mem_cons_of_mem c hm)
    simp [splitChar, splitChar_not_mem hcs, hc]

/-- After a successful byte read, extraction dispatches on the lowercased
extension. -/
lemma extract_read_ok (file : File) (d : DecodedData)
    (h : file.readResult = .ok d) :
    extractTextFromFile file =
      if extLabel file.name = "pdf" then pdfBranch d.pdfPages
      else if extLabel file.name = "docx" ∨ extLabel file.name = "doc" then
        wordBranch d.wordText
      else .error (.unsupportedFormat unsupportedMsg) := by
  simp only [extractTextFromFile, h]

/-- The page loop on all-successful pages produces each page's text followed
by a blank line, which equals the blank-line-separated concatenation plus a
trailing blank line (empty output for zero pages). -/
lemma pdfFullText_map_ok : ∀ pages : List (List String),
    pdfFullText (pages.map Except.ok) =
      .ok (specPdfText pages ++ if pages.isEmpty then "" else "\n\n")
  | [] => by simp [pdfFullText, specPdfText, sepConcat]
  | [p] => by
    simp [pdfFullText, specPdfText, sepConcat, String.append_empty]
  | p :: q :: rest => by
    have ih := pdfFullText_map_ok (q :: rest)
    simp only [List.map_cons, pdfFullText] at ih ⊢
    rw [ih]
    simp [specPdfText, sepConcat, String.append_assoc]

/-- A decode failure among the pages aborts the whole page loop. -/
lemma pdfFullText_error_of_mem : ∀ pages : List (Except Unit (List String)),
    Except.error () ∈ pages → pdfFullText pages = .error ()
  | [], h => absurd h (List.not_mem_nil _)
  | p :: rest, h => by
    cases h with
    | head => rfl
    | tail _ hm =>
      cases p with
      | error e => rfl
      | ok items => simp [pdfFullText, pdfFullText_error_of_mem rest hm]

/-- In-range JavaScript element assignment is `List.set`. -/
lemma jsArraySet_eq_set (l : List String) (i : Nat) (v : String)
    (h : i < l.length) : jsArraySet l i v = l.set i v := by
  simp [jsArraySet, h]

/-- In-range assignment preserves the array's length. -/
lemma jsArraySet_length (l : List String) (i : Nat) (v : String)
    (h : i < l.length) : (jsArraySet l i v).length = l.length := by
  simp [jsArraySet_eq_set l i v h]

/-- Each event preserves the session invariant, as long as jump indices are
in range. -/
lemma step_preserves_inv (s : AppModel) (e : Event) (hs : SessionInv s)
    (hg : ∀ i, e = Event.jump i → i < s.quizQuestions.length) :
    SessionInv (step s e) := by
  obtain ⟨hidx, hlen⟩ := hs
  rcases s with ⟨st, qs, ans, idx, dur, err⟩
  cases st <;> cases e
  case quiz.selectAnswer t =>
    have hi : idx < ans.length := hlen ▸ hidx (Or.inl rfl)
    refine ⟨fun _ => hidx (Or.inl rfl), ?_⟩
    simpa [step, jsArraySet_length ans idx t hi] using hlen
  case quiz.next =>
    have hq : idx < qs.length := hidx (Or.inl rfl)
    refine ⟨fun _ => ?_, ?_⟩
    · by_cases h : idx < qs.length - 1 <;> simp [step, h] <;> omega
    · by_cases h : idx < qs.length - 1 <;> simp [step, h, hlen]
  case quiz.prev =>
    have hq : idx < qs.length := hidx (Or.inl rfl)
    refine ⟨fun _ => ?_, ?_⟩
    · by_cases h : 0 < idx <;> simp [step, h] <;> omega
    · by_cases h : 0 < idx <;> simp [step, h, hlen]
  case quiz.finish =>
    exact ⟨fun _ => hidx (Or.inl rfl), hlen⟩
  case review.jump i =>
    exact ⟨fun _ => hg i rfl, hlen⟩
  case review.finalSubmit =>
    exact ⟨fun _ => hidx (Or.inr (Or.inl rfl)), hlen⟩
  case results.retry =>
    refine ⟨fun h => ?_, rfl⟩
    simp [step] at h
  all_goals exact ⟨hidx, hlen⟩

/-- Any state guarded-reachable from a nonempty fresh session satisfies the
session invariant. -/
lemma guardedReachable_inv (qs : List QuizQuestion) (d : Nat) (s : AppModel)
    (hne : 0 < qs.length) (hr : GuardedReachable (freshSession qs d) s) :
    SessionInv s := by
  induction hr with
  | refl => exact ⟨fun _ => hne, by simp [freshSession]⟩
  | tail s' e _ hg ih => exact step_preserves_inv s' e ih hg

/-- `validateText` written as a single conditional. -/
lemma validateText_eq (text : String) :
    validateText text =
      if (jsTrim text).length < 100 then
        .error ⟨(jsTrim text).length, jsSubstring (jsTrim text) 0 100⟩
      else .ok () := rfl

/-! ## Claims -/

/-- C4: validation fails with `TooShort` iff the whitespace-trimmed text is
strictly shorter than 100 characters; when it fails, the reported length is
the trimmed length and the reported snippet is the first
`min 100 (trimmed length)` characters of the trimmed text. -/
theorem validate_tooShort_spec (text : String) :
    ((∃ ts, validateText text = .error ts) ↔ (jsTrim text).length < 100) ∧
    (∀ ts, validateText text = .error ts →
      ts.length = (jsTrim text).length ∧
      ts.snippet = String.mk ((jsTrim text).data.take (min 100 (jsTrim text).length))) := by
  have hmin : (jsTrim text).data.take (min 100 (jsTrim text).length) =
      (jsTrim text).data.take 100 := by
    show (jsTrim text).data.take (min 100 (jsTrim text).data.length) = _
    rw [← List.take_take, List.take_length]
  constructor
  · constructor
    · rintro ⟨ts, hts⟩
      rw [validateText_eq] at hts
      by_cases h : (jsTrim text).length < 100
      · exact h
      · rw [if_neg h] at hts
        cases hts
    · intro h
      exact ⟨_, by rw [validateText_eq, if_pos h]⟩
  · intro ts hts
    rw [validateText_eq] at hts
    by_cases h : (jsTrim text).length < 100
    · rw [if_pos h] at hts
      injection hts with hts
      subst hts
      refine ⟨rfl, ?_⟩
      show jsSubstring (jsTrim text) 0 100 = _
      rw [hmin]
      simp [jsSubstring]
    · rw [if_neg h] at hts
      cases hts

/-- Witness for C4 at the spec's own scenario B input. -/
theorem validate_tooShort_spec_witness :
    (validateText "  short doc  " = .error ⟨9, "short doc"⟩) ∧
    ((jsTrim "  short doc  ").length < 100) ∧
    ((9 : Nat) = (jsTrim "  short doc  ").length ∧
      ("short doc" : String) =
        String.mk ((jsTrim "  short doc  ").data.take
          (min 100 (jsTrim "  short doc  ").length))) :=
  ⟨by decide, by decide,
    (validate_tooShort_spec "  short doc  ").2 ⟨9, "short doc"⟩ (by decide)⟩

/-- C10: the format tag is the lowercased part of the file name after the
last dot — and the whole lowercased name when it has no dot — so a file
named exactly `pdf` is routed to the PDF decoder and never fails with
`UnsupportedFormat`. -/
theorem extLabel_no_dot_spec (name : String) (h : '.' ∉ name.data) :
    extLabel name = String.mk (name.data.map Char.toLower) ∧
    (∀ d : DecodedData,
      extractTextFromFile ⟨"pdf", .ok d⟩ = pdfBranch d.pdfPages) ∧
    (∀ d : DecodedData,
      failsUnsupported (extractTextFromFile ⟨"pdf", .ok d⟩) = false) := by
  have hpdf : extLabel "pdf" = "pdf" := by decide
  refine ⟨?_, ?_, ?_⟩
  · rw [extLabel, splitChar_not_mem h]
    rfl
  · intro d
    rw [extract_read_ok ⟨"pdf", .ok d⟩ d rfl, if_pos hpdf]
  · intro d
    rw [extract_read_ok ⟨"pdf", .ok d⟩ d rfl, if_pos hpdf, pdfBranch]
    cases hp : pdfFullText d.pdfPages <;> simp [failsUnsupported]

/-- Witness for C10 on the dotless upper-case name `PDF`. -/
theorem extLabel_no_dot_spec_witness :
    ('.' ∉ "PDF".data) ∧
    extLabel "PDF" = String.mk ("PDF".data.map Char.toLower) :=
  ⟨by decide, (extLabel_no_dot_spec "PDF" (by decide)).1⟩

/-- C3 counterexample: a `.txt` file whose byte read fails is rejected with
the read-failure message, not with `UnsupportedFormat` — the bytes are read
before the extension is ever examined, so the unsupported-format failure
does not precede the read. -/
theorem unsupported_before_read_cex :
    extractTextFromFile txtReadFailFile =
      .error (.readFailure "An error occurred while reading the file.") ∧
    failsUnsupported (extractTextFromFile txtReadFailFile) = false := by
  decide

/-- C3 (amended): once the byte read has succeeded, a file whose lowercased
extension is none of `pdf`, `doc`, `docx` fails with `UnsupportedFormat`;
`pdf` routes to the PDF branch and `doc`/`docx` to the Word branch. The
extension check runs inside the load callback, after the bytes are read. -/
theorem extension_routing_spec (file : File) (d : DecodedData)
    (hread : file.readResult = .ok d) :
    (extLabel file.name ∉ (["pdf", "doc", "docx"] : List String) →
      extractTextFromFile file = .error (.unsupportedFormat unsupportedMsg)) ∧
    (extLabel file.name = "pdf" →
      extractTextFromFile file = pdfBranch d.pdfPages) ∧
    ((extLabel file.name = "doc" ∨ extLabel file.name = "docx") →
      extractTextFromFile file = wordBranch d.wordText) := by
  rw [extract_read_ok file d hread]
  refine ⟨?_, ?_, ?_⟩
  · intro hn
    simp only [List.mem_cons, List.mem_singleton, not_or] at hn
    rw [if_neg hn.1, if_neg (by tauto)]
  · intro hp
    rw [if_pos hp]
  · rintro (hw | hw) <;> simp [hw]

/-- Witness for C3's amended routing on a read-successful `.TXT` file. -/
theorem extension_routing_spec_witness :
    ((⟨"a.TXT", .ok ⟨[], .ok ""⟩⟩ : File).readResult = .ok ⟨[], .ok ""⟩) ∧
    (extLabel "a.TXT" ∉ (["pdf", "doc", "docx"] : List String)) ∧
    extractTextFromFile ⟨"a.TXT", .ok ⟨[], .ok ""⟩⟩ =
      .error (.unsupportedFormat unsupportedMsg) :=
  ⟨rfl, by decide, (extension_routing_spec ⟨"a.TXT", .ok ⟨[], .ok ""⟩⟩ ⟨[], .ok ""⟩ rfl).1 (by decide)⟩

/-- C5 counterexample: a one-page PDF whose page holds the single token `a`
extracts to `"a\n\n"`, while the blank-line-separated concatenation the
claim describes is `"a"` — the code appends a blank line after the last
page as well. -/
theorem pdf_separator_cex :
    extractTextFromFile onePagePdfFile = .ok "a\n\n" ∧
    specPdfText [["a"]] = "a" ∧
    ("a\n\n" : String) ≠ "a" := by decide

/-- C5 (amended): for a PDF whose pages all decode, the extracted text is
the page-ordered blank-line-separated concatenation of each page's
space-joined tokens followed by one trailing blank line (empty output for
zero pages); a decode failure at any page fails the whole extraction with
the PDF parse-failure message, yielding no text for any page. -/
theorem pdf_extraction_spec (name : String) (d : DecodedData)
    (hpdf : extLabel name = "pdf") :
    (∀ pages : List (List String), d.pdfPages = pages.map Except.ok →
      extractTextFromFile ⟨name, .ok d⟩ =
        .ok (specPdfText pages ++ if pages.isEmpty then "" else "\n\n")) ∧
    (Except.error () ∈ d.pdfPages →
      extractTextFromFile ⟨name, .ok d⟩ = .error (.parseFailure pdfParseMsg)) := by
  have hroute : extractTextFromFile ⟨name, .ok d⟩ = pdfBranch d.pdfPages := by
    rw [extract_read_ok ⟨name, .ok d⟩ d rfl, if_pos hpdf]
  constructor
  · intro pages hp
    rw [hroute, pdfBranch, hp, pdfFullText_map_ok]
  · intro hmem
    rw [hroute, pdfBranch, pdfFullText_error_of_mem d.pdfPages hmem]

/-- Witness for C5's amended description on a two-page PDF. -/
theorem pdf_extraction_spec_witness :
    extLabel "x.pdf" = "pdf" ∧
    extractTextFromFile ⟨"x.pdf", .ok ⟨[Except.ok ["a"], Except.ok ["b", "c"]], .ok ""⟩⟩ =
      .ok (specPdfText [["a"], ["b", "c"]] ++
        if ([["a"], ["b", "c"]] : List (List String)).isEmpty then "" else "\n\n") :=
  ⟨by decide,
    (pdf_extraction_spec "x.pdf" ⟨[Except.ok ["a"], Except.ok ["b", "c"]], .ok ""⟩
      (by decide)).1 [["a"], ["b", "c"]] rfl⟩

/-- C1: when any pipeline step fails with message `msg`, the controller
stores `msg` as the error, returns the phase to `setup`, and leaves the
question list, the answers, the current index, and the timer duration
exactly as they were — no partial session is ever observable. -/
theorem pipeline_failure_resets (gen : String → Nat → Except String (List QuizQuestion))
    (s : AppModel) (file : File) (n d : Nat) (msg : String)
    (h : runPipeline gen file n = .error msg) :
    handleQuizGenerate gen s file n d =
      { s with appState := .setup, error := some msg } := by
  rw [handleQuizGenerate, h]

/-- Witness for C1: an unsupported file fails the pipeline and only the
phase and the error message change. -/
theorem pipeline_failure_resets_witness :
    runPipeline genFail txtReadFailFile 5 =
      .error "An error occurred while reading the file." ∧
    handleQuizGenerate genFail demoInit txtReadFailFile 5 30 =
      { demoInit with
        appState := .setup
        error := some "An error occurred while reading the file." } :=
  ⟨by decide,
    pipeline_failure_resets genFail demoInit txtReadFailFile 5 30
      "An error occurred while reading the file." (by decide)⟩

/-- C6: on a fully successful run — extraction yields `t`, `t` passes
validation, and the producer invoked with the full extracted text `t` and
the requested count returns `questions` — the session is installed in one
step: the question list becomes `questions`, the answers become as many
empty strings, the index becomes 0, the timer becomes the submitted
duration, and the phase becomes `quiz`. -/
theorem pipeline_success_installs (gen : String → Nat → Except String (List QuizQuestion))
    (s : AppModel) (file : File) (n d : Nat) (t : String)
    (questions : List QuizQuestion)
    (hx : extractTextFromFile file = .ok t)
    (hv : validateText t = .ok ())
    (hg : gen t n = .ok questions) :
    handleQuizGenerate gen s file n d =
      { s with
        appState := .quiz
        quizQuestions := questions
        userAnswers := List.replicate questions.length ""
        timerDuration := d
        currentQuestionIndex := 0
        error := none } := by
  simp only [handleQuizGenerate, runPipeline, hx, hv, hg]

/-- Witness for C6 on a Word file holding 100 characters. -/
theorem pipeline_success_installs_witness :
    extractTextFromFile wordFile100 = .ok text100 ∧
    validateText text100 = .ok () ∧
    genOk text100 2 = .ok [demoQuestion, demoQuestion] ∧
    handleQuizGenerate genOk demoInit wordFile100 2 45 =
      { demoInit with
        appState := .quiz
        quizQuestions := [demoQuestion, demoQuestion]
        userAnswers := List.replicate
          ([demoQuestion, demoQuestion] : List QuizQuestion).length ""
        timerDuration := 45
        currentQuestionIndex := 0
        error := none } :=
  ⟨by decide, by decide, by decide,
    pipeline_success_installs genOk demoInit wordFile100 2 45 text100
      [demoQuestion, demoQuestion] (by decide) (by decide) (by decide)⟩

/-- C2 counterexample: from a freshly installed one-question session, finish
the quiz and jump to index 5 — `handleJumpToQuestion` applies the index
unconditionally, so the reached `quiz` state has `currentIndex = 5` with
only one question, violating the claimed invariant. -/
theorem jump_unguarded_cex :
    Reachable demoInit demoEscaped ∧
    demoEscaped.appState = AppState.quiz ∧
    ¬ (demoEscaped.currentQuestionIndex < demoEscaped.quizQuestions.length) :=
  ⟨Reachable.tail _ (.jump 5) (Reachable.tail _ .finish Reachable.refl),
    by decide, by decide⟩

/-- C2 (amended): `handleJumpToQuestion` sets `currentIndex = i`
unconditionally (the guard lives in the review view, not the controller);
provided the installed question list is nonempty and every jump event
carries an in-range index, every reachable state in the `quiz` or `review`
phase satisfies `currentIndex < len(questions)` and
`len(userAnswers) = len(questions)`. -/
theorem session_invariant_amended (qs : List QuizQuestion) (d : Nat)
    (s : AppModel) (hne : 0 < qs.length)
    (hr : GuardedReachable (freshSession qs d) s)
    (hphase : s.appState = .quiz ∨ s.appState = .review) :
    s.currentQuestionIndex < s.quizQuestions.length ∧
    s.userAnswers.length = s.quizQuestions.length := by
  have hinv := guardedReachable_inv qs d s hne hr
  exact ⟨hinv.1 (by tauto), hinv.2⟩

/-- Witness for C2's amended invariant after a guarded jump. -/
theorem session_invariant_amended_witness :
    (0 < ([demoQuestion] : List QuizQuestion).length) ∧
    ((step (step demoInit .finish) (.jump 0)).currentQuestionIndex <
        (step (step demoInit .finish) (.jump 0)).quizQuestions.length ∧
      (step (step demoInit .finish) (.jump 0)).userAnswers.length =
        (step (step demoInit .finish) (.jump 0)).quizQuestions.length) :=
  ⟨by decide,
    session_invariant_amended [demoQuestion] 30 _ (by decide)
      (GuardedReachable.tail _ (.jump 0)
        (GuardedReachable.tail _ .finish GuardedReachable.refl
          (by intro i h; cases h))
        (by intro i h; cases h; decide))
      (Or.inl (by decide))⟩

/-- C7: in the quiz phase, selecting answer `a` stores `a` at the current
index and leaves every other index unchanged; a second selection on the
same question simply overwrites the entry, so the last call wins. -/
theorem selectAnswer_spec (s : AppModel) (a b : String)
    (hq : s.appState = .quiz)
    (hi : s.currentQuestionIndex < s.userAnswers.length) :
    ((step s (.selectAnswer a)).userAnswers)[s.currentQuestionIndex]? = some a ∧
    (∀ j, j ≠ s.currentQuestionIndex →
      ((step s (.selectAnswer a)).userAnswers)[j]? = s.userAnswers[j]?) ∧
    step (step s (.selectAnswer a)) (.selectAnswer b) =
      step s (.selectAnswer b) := by
  rcases s with ⟨st, qs, ans, idx, dur, err⟩
  subst hq
  simp only [step] at hi ⊢
  rw [jsArraySet_eq_set ans idx a hi]
  refine ⟨List.getElem?_set_self hi, fun j hj => List.getElem?_set_ne (Ne.symm hj), ?_⟩
  rw [jsArraySet_eq_set (ans.set idx a) idx b (by simpa using hi), List.set_set,
    jsArraySet_eq_set ans idx b hi]

/-- Witness for C7 on a fresh one-question session. -/
theorem selectAnswer_spec_witness :
    (demoInit.appState = AppState.quiz ∧
      demoInit.currentQuestionIndex < demoInit.userAnswers.length) ∧
    ((step demoInit (.selectAnswer "x")).userAnswers)[demoInit.currentQuestionIndex]? =
      some "x" ∧
    step (step demoInit (.selectAnswer "x")) (.selectAnswer "y") =
      step demoInit (.selectAnswer "y") :=
  ⟨⟨by decide, by decide⟩,
    (selectAnswer_spec demoInit "x" "y" (by decide) (by decide)).1,
    (selectAnswer_spec demoInit "x" "y" (by decide) (by decide)).2.2⟩

/-- C8: in the quiz phase, `next` adds one to the index when it is below
`len(questions) - 1` and does nothing at the last question; `prev`
subtracts one when the index is positive and does nothing at index 0 —
both boundary cases are no-ops, not errors. -/
theorem nav_boundary_spec (s : AppModel) (hq : s.appState = .quiz) :
    (s.currentQuestionIndex < s.quizQuestions.length - 1 →
      (step s .next).currentQuestionIndex = s.currentQuestionIndex + 1) ∧
    (s.currentQuestionIndex = s.quizQuestions.length - 1 →
      (step s .next).currentQuestionIndex = s.currentQuestionIndex) ∧
    (0 < s.currentQuestionIndex →
      (step s .prev).currentQuestionIndex = s.currentQuestionIndex - 1) ∧
    (s.currentQuestionIndex = 0 →
      (step s .prev).currentQuestionIndex = s.currentQuestionIndex) := by
  have hnext : step s .next =
      if s.currentQuestionIndex < s.quizQuestions.length - 1 then
        { s with currentQuestionIndex := s.currentQuestionIndex + 1 }
      else s := by
    rcases s with ⟨st, qs, ans, idx, dur, err⟩
    subst hq
    rfl
  have hprev : step s .prev =
      if 0 < s.currentQuestionIndex then
        { s with currentQuestionIndex := s.currentQuestionIndex - 1 }
      else s := by
    rcases s with ⟨st, qs, ans, idx, dur, err⟩
    subst hq
    rfl
  refine ⟨fun h => ?_, fun h => ?_, fun h => ?_, fun h => ?_⟩
  · simp [hnext, h]
  · simp [hnext, show ¬ s.currentQuestionIndex < s.quizQuestions.length - 1 by omega]
  · simp [hprev, h]
  · simp [hprev, show ¬ 0 < s.currentQuestionIndex by omega]

/-- Witness for C8 on a fresh one-question session (index 0 is both the
first and the last question). -/
theorem nav_boundary_spec_witness :
    demoInit.appState = AppState.quiz ∧
    (demoInit.currentQuestionIndex = demoInit.quizQuestions.length - 1 ∧
      (step demoInit .next).currentQuestionIndex = demoInit.currentQuestionIndex) ∧
    (demoInit.currentQuestionIndex = 0 ∧
      (step demoInit .prev).currentQuestionIndex = demoInit.currentQuestionIndex) :=
  ⟨by decide,
    ⟨by decide, (nav_boundary_spec demoInit (by decide)).2.1 (by decide)⟩,
    ⟨by decide, (nav_boundary_spec demoInit (by decide)).2.2.2 (by decide)⟩⟩

/-- C9: from the `results` phase, `retry` returns the phase to `setup`,
empties the question and answer lists, resets the index to 0, and clears
the error message. -/
theorem retry_resets (s : AppModel) (hr : s.appState = .results) :
    step s .retry =
      { s with
        appState := .setup
        quizQuestions := []
        userAnswers := []
        currentQuestionIndex := 0
        error := none } := by
  rcases s with ⟨st, qs, ans, idx, dur, err⟩
  subst hr
  rfl

/-- Witness for C9 from a results-phase session. -/
theorem retry_resets_witness :
    ({ demoInit with appState := AppState.results } : AppModel).appState =
      AppState.results ∧
    step { demoInit with appState := AppState.results } .retry =
      { ({ demoInit with appState := AppState.results } : AppModel) with
        appState := .setup
        quizQuestions := []
        userAnswers := []
        currentQuestionIndex := 0
        error := none } :=
  ⟨rfl, retry_resets { demoInit with appState := AppState.results } rfl⟩

end QuizApp
